import Mathlib

/-!
Verification model of the Overpass geospatial-query subsystem:
`src/data/input/osm_input.py` (class `OverpassQuery`) and
`src/data/service/osm_client.py` (class `AsyncOverpassClient`).

Python floats are modelled by `XFloat` (a finite rational or one of the
non-finite values NaN / +inf / -inf); Python dicts with string keys by
association lists with an overwriting insert; raised exceptions by
`Except`; the HTTP transport by a function from attempt index to the
attempt's outcome; wall-clock sleeping by counters.
-/

namespace OsintOverpass

deriving instance DecidableEq for Except

/-- Model of a Python float as seen by the decoder: either a finite value
(modelled as a rational) or one of the non-finite values NaN, +inf, -inf. -/
inductive XFloat
| fin (q : ℚ)
| nan
| inf
| ninf
deriving DecidableEq, Repr

/-- Model of `math.isfinite`. -/
def XFloat.isfinite : XFloat → Bool
| XFloat.fin _ => true
| _ => false

/-- Python float equality (`==`): NaN compares unequal to everything,
including itself; the two infinities compare equal only to themselves. -/
def XFloat.beq : XFloat → XFloat → Bool
| XFloat.fin a, XFloat.fin b => a == b
| XFloat.inf, XFloat.inf => true
| XFloat.ninf, XFloat.ninf => true
| _, _ => false

/-- Shapely geometries constructed by `json_to_geodataframe`: `Point`,
`LineString`, and `Polygon` (a list of rings, as produced by
`shapely.geometry.mapping`; the code only ever builds one exterior ring,
but `is_valid_geometry`'s walk covers nested rings). -/
inductive Geometry
| point (lon lat : XFloat)
| linestring (coords : List (XFloat × XFloat))
| polygon (rings : List (List (XFloat × XFloat)))
deriving DecidableEq, Repr

/-- Values stored in a decoded record: tag strings, the integer element id,
or the constructed geometry. -/
inductive Value
| str (s : String)
| int (n : Int)
| geom (g : Geometry)
deriving DecidableEq, Repr

/-- Python dict insertion `d[k] = v` on an association list: overwrite the
value in place if the key exists, else append the new binding. -/
def dictInsert (d : List (String × Value)) (k : String) (v : Value) :
    List (String × Value) :=
  if d.any (fun p => p.1 == k) then
    d.map (fun p => if p.1 == k then (k, v) else p)
  else d ++ [(k, v)]

/-- Python dict lookup `d[k]` on an association list. -/
def dictLookup (d : List (String × Value)) (k : String) : Option Value :=
  match d with
  | [] => none
  | p :: rest => if p.1 == k then some p.2 else dictLookup rest k

/-- The record literal in `json_to_geodataframe`:
`{"id": el["id"], **tags, "geometry": geom}` — the `id` entry first, then
the tag entries in stored order, then the `geometry` entry, later writes
overwriting earlier ones. -/
def buildRecord (elId : Int) (tags : List (String × Value)) (geom : Geometry) :
    List (String × Value) :=
  dictInsert
    (tags.foldl (fun d p => dictInsert d p.1 p.2) [("id", Value.int elId)])
    "geometry" (Value.geom geom)

/-- The `type` field of a raw Overpass element (`other` stands for any
unrecognised type string, which matches none of the branches). -/
inductive ElemType
| node
| way
| relation
| other
deriving DecidableEq, Repr

/-- One entry of a way's `geometry` array; `none` models a missing
`lon` / `lat` key (access raises `KeyError`). -/
structure RawPoint where
  lon : Option XFloat
  lat : Option XFloat
deriving DecidableEq, Repr

/-- A raw element of the Overpass JSON `elements` array. `lat` / `lon` are
the node fields (`none` when the key is absent), `geometry` the way's point
list, `tags` the optional tag mapping (default `{}`). -/
structure RawElement where
  type : ElemType
  id : Int
  lat : Option XFloat
  lon : Option XFloat
  geometry : List RawPoint
  tags : List (String × Value)
deriving DecidableEq, Repr

/-- Finiteness of one coordinate pair, as checked by `check_coords` on a
`(lon, lat)` tuple. -/
def check_pair (p : XFloat × XFloat) : Bool :=
  p.1.isfinite && p.2.isfinite

/-- The recursive `check_coords` walk of `is_valid_geometry`, specialised to
the fixed nesting shape `shapely.geometry.mapping` yields for each geometry
type: a point is a coordinate pair, a linestring a list of pairs, a polygon
a list of rings (lists of pairs). -/
def check_coords : Geometry → Bool
| Geometry.point lon lat => lon.isfinite && lat.isfinite
| Geometry.linestring cs => cs.all check_pair
| Geometry.polygon rings => rings.all (fun r => r.all check_pair)

/-- `OverpassQuery.is_valid_geometry`: `None` is invalid, otherwise all
coordinate components (including components of nested rings) must be
finite. -/
def is_valid_geometry (geom : Option Geometry) : Bool :=
  match geom with
  | none => false
  | some g => check_coords g

/-- Spec-level invariant predicate: every coordinate component of the
geometry, including components of nested rings, is finite. -/
def geomCoordsFinite : Geometry → Bool
| Geometry.point lon lat => lon.isfinite && lat.isfinite
| Geometry.linestring cs => cs.all (fun p => p.1.isfinite && p.2.isfinite)
| Geometry.polygon rings => rings.all (fun r => r.all (fun p => p.1.isfinite && p.2.isfinite))

/-- The way-branch comprehension
`[(pt["lon"], pt["lat"]) for pt in el.get("geometry", []) if math.isfinite(pt["lon"]) and math.isfinite(pt["lat"])]`
with Python's evaluation order: `pt["lon"]` is read first (a missing key
raises, aborting the whole comprehension); if it is non-finite the `and`
short-circuits and `pt["lat"]` is never read; otherwise `pt["lat"]` is
read (a missing key raises) and the point is kept iff it is finite too. -/
def filterPoints : List RawPoint → Except Unit (List (XFloat × XFloat))
| [] => Except.ok []
| pt :: rest =>
  match pt.lon with
  | none => Except.error ()
  | some lo =>
    if lo.isfinite then
      match pt.lat with
      | none => Except.error ()
      | some la =>
        if la.isfinite then
          match filterPoints rest with
          | Except.error e => Except.error e
          | Except.ok cs => Except.ok ((lo, la) :: cs)
        else filterPoints rest
    else filterPoints rest

/-- Python tuple equality on a coordinate pair (`coords[0] == coords[-1]`). -/
def pairBeq (a b : XFloat × XFloat) : Bool :=
  XFloat.beq a.1 b.1 && XFloat.beq a.2 b.2

/-- Model of the shapely `Polygon` constructor at its call site (line 188),
where the branch condition guarantees the ring is already closed (first
coordinate equals last): the underlying GEOS LinearRing accepts an empty
ring or one with at least 4 coordinates and raises on 1–3 coordinates; the
exception reaches the per-element handler. -/
def shapelyPolygon (ring : List (XFloat × XFloat)) : Except Unit Geometry :=
  if ring.length = 0 ∨ 4 ≤ ring.length then Except.ok (Geometry.polygon [ring])
  else Except.error ()

/-- Model of the shapely `LineString` constructor at its call site
(line 190): GEOS accepts an empty point array or one with at least 2
points and raises on a single point; the exception reaches the
per-element handler. -/
def shapelyLineString (coords : List (XFloat × XFloat)) : Except Unit Geometry :=
  if coords.length = 1 then Except.error ()
  else Except.ok (Geometry.linestring coords)

/-- The geometry-construction part of the per-element loop of
`json_to_geodataframe` (lines 179–196): node → `Point(lon, lat)` when both
coordinates are present; way → filter the point list, drop the element when
nothing remains, call the `Polygon` constructor when the first kept point
equals the last and at least 3 points remain, else the `LineString`
constructor (either constructor can itself raise on degenerate input);
relation and unrecognised types → no geometry. `Except.error` models an
exception reaching the per-element handler. -/
def elementGeom (el : RawElement) : Except Unit (Option Geometry) :=
  match el.type with
  | ElemType.node =>
    match el.lat, el.lon with
    | some la, some lo => Except.ok (some (Geometry.point lo la))
    | _, _ => Except.ok none
  | ElemType.way =>
    match filterPoints el.geometry with
    | Except.error e => Except.error e
    | Except.ok [] => Except.ok none
    | Except.ok (c :: cs) =>
      if pairBeq c ((c :: cs).getLast (by simp)) = true ∧ 3 ≤ (c :: cs).length then
        match shapelyPolygon (c :: cs) with
        | Except.error e => Except.error e
        | Except.ok g => Except.ok (some g)
      else
        match shapelyLineString (c :: cs) with
        | Except.error e => Except.error e
        | Except.ok g => Except.ok (some g)
  | ElemType.relation => Except.ok none
  | ElemType.other => Except.ok none

/-- One iteration of the per-element loop of `json_to_geodataframe`:
`none` when the element is skipped (no geometry, invalid geometry, or an
exception caught by the per-element handler), otherwise the record
`{"id": el["id"], **tags, "geometry": geom}`. -/
def decodeElement (el : RawElement) : Option (List (String × Value)) :=
  match elementGeom el with
  | Except.error _ => none
  | Except.ok none => none
  | Except.ok (some g) =>
    if is_valid_geometry (some g) then some (buildRecord el.id el.tags g)
    else none

/-- `OverpassQuery.json_to_geodataframe` restricted to its record list: each
element of the batch decodes independently; skipped elements leave no
record and never abort the batch. -/
def json_to_geodataframe (elements : List RawElement) :
    List (List (String × Value)) :=
  elements.filterMap decodeElement

/-- A Python tag-filter value as stored in the `tags` dict: the booleans
`True` / `False`, a string, or some other object (an int or `None`). -/
inductive TagVal
| pyTrue
| pyFalse
| pyStr (s : String)
| pyInt (n : Int)
| pyNone
deriving DecidableEq, Repr

/-- Python `v.startswith("~")`: the first character is `'~'`. -/
def startswithTilde (s : String) : Bool :=
  s.data.head? == some (Char.ofNat 126)

/-- Python `"|" in v`: the string contains the character `'|'`. -/
def containsPipe (s : String) : Bool :=
  s.data.contains (Char.ofNat 124)

/-- One iteration of the loop in `OverpassQuery._format_tags`: the list of
bracket clauses this entry appends to `tag_queries` (empty when the entry
matches none of the branches). -/
def formatTag (k : String) (v : TagVal) : List String :=
  match v with
  | TagVal.pyTrue => ["[" ++ k ++ "]"]
  | TagVal.pyFalse => ["[!" ++ k ++ "]"]
  | TagVal.pyStr s =>
    if startswithTilde s then ["[" ++ k ++ "~\"" ++ s.drop 1 ++ "\"]"]
    else if containsPipe s then ["[" ++ k ++ "~\"^" ++ s ++ "$\"]"]
    else ["[" ++ k ++ "=\"" ++ s ++ "\"]"]
  | TagVal.pyInt _ => []
  | TagVal.pyNone => []

/-- `OverpassQuery._format_tags`: the per-entry clauses concatenated in the
mapping's stored order with no separators (`"".join(tag_queries)`). -/
def format_tags (tags : List (String × TagVal)) : String :=
  String.join (tags.flatMap (fun p => formatTag p.1 p.2))

/-- The constructor parameters of `OverpassQuery` that query building and
execution consume. A bounding-box component is carried in its rendered
textual form (the result of Python `str` on the float), since
`_build_main_query` only ever joins those renderings. An absent
`area_name` is the empty string (the code tests Python truthiness). -/
structure QueryCfg where
  area_name : String
  bbox : Option (String × String × String × String)
  tags : List (String × TagVal)
  element_types : List String
  timeout : Nat
  output : String
  csv_fields : Option (List String)
  parse_geometry : Bool
  max_retries : Nat
deriving Repr

/-- Whether one of the two location selectors is present (`self.bbox`
truthy, else `self.area_name` truthy). -/
def hasLocation (cfg : QueryCfg) : Bool :=
  cfg.bbox.isSome || cfg.area_name != ""

/-- The location clause of `OverpassQuery._build_main_query`: a present
bounding box renders its four components literally as `(s,w,n,e)`; else a
non-empty area name renders `(area)`; else `ValueError`. -/
def locationClause (cfg : QueryCfg) : Except String String :=
  match cfg.bbox with
  | some (s, w, n, e) =>
    Except.ok ("(" ++ s ++ "," ++ w ++ "," ++ n ++ "," ++ e ++ ")")
  | none =>
    if cfg.area_name != "" then Except.ok "(area)"
    else Except.error "Either bbox or area_name must be specified."

/-- `OverpassQuery._build_area_query`: empty for a falsy area name, else the
statement selecting the named administrative area. -/
def build_area_query (cfg : QueryCfg) : String :=
  if cfg.area_name = "" then ""
  else "area[name=\"" ++ cfg.area_name ++ "\"][admin_level];"

/-- `OverpassQuery._build_main_query`: one statement per requested element
type — the type, the tag filter, the location clause and `;` — joined by
newlines. -/
def build_main_query (cfg : QueryCfg) : Except String String :=
  match locationClause cfg with
  | Except.error e => Except.error e
  | Except.ok location =>
    Except.ok (String.intercalate "\n"
      (cfg.element_types.map (fun et => et ++ format_tags cfg.tags ++ location ++ ";")))

/-- The three-way output-mode branch of `OverpassQuery._build_query`:
`output == "csv"` with a truthy (non-empty) `csv_fields` list, else
`output == "json"` with `parse_geometry`, else the default dump. -/
inductive OutMode
| csv (header : String)
| jsonGeom
| defaultDump
deriving DecidableEq, Repr

/-- Which of the three `_build_query` templates applies. -/
def outMode (cfg : QueryCfg) : OutMode :=
  match cfg.output == "csv", cfg.csv_fields with
  | true, some (f :: fs) => OutMode.csv (String.intercalate "," (f :: fs))
  | _, _ =>
    if cfg.output == "json" && cfg.parse_geometry then OutMode.jsonGeom
    else OutMode.defaultDump

/-- The first line of the chosen `_build_query` template (after `.strip()`). -/
def queryHeader (cfg : QueryCfg) : String :=
  match outMode cfg with
  | OutMode.csv h => "[out:csv(" ++ h ++ ")][timeout:" ++ toString cfg.timeout ++ "];"
  | OutMode.jsonGeom => "[out:json][timeout:" ++ toString cfg.timeout ++ "];"
  | OutMode.defaultDump => "[out:" ++ cfg.output ++ "][timeout:" ++ toString cfg.timeout ++ "];"

/-- The output statements closing the chosen `_build_query` template. -/
def queryEnding (cfg : QueryCfg) : String :=
  match outMode cfg with
  | OutMode.csv _ => "out center;"
  | OutMode.jsonGeom => "out geom;"
  | OutMode.defaultDump => "out body;\n            >;\n            out skel qt;"

/-- `OverpassQuery._build_query`: the stripped f-string template — header
line, then the area statement, then the parenthesised union of the main
statements, then the output statements, with the original 12-space inner
indentation preserved by `.strip()`. -/
def build_query (cfg : QueryCfg) : Except String String :=
  match build_main_query cfg with
  | Except.error e => Except.error e
  | Except.ok main_part =>
    Except.ok (queryHeader cfg ++ "\n            " ++ build_area_query cfg ++
      "\n            (\n                " ++ main_part ++ "\n            );\n            " ++
      queryEnding cfg)

/-- Result of `OverpassQuery._wait_for_slot`: return after `elapsed` seconds
of accumulated sleeping, or `TimeoutError` after `elapsed` seconds. -/
inductive SlotResult
| ok (elapsed : Nat)
| timeout (elapsed : Nat)
deriving DecidableEq, Repr

/-- The `while waited < max_wait` loop of `_wait_for_slot`: poll the status
endpoint (`avail` indexed by the accumulated wait), return on availability,
else sleep 5 seconds and repeat; `TimeoutError` once `waited` reaches
`max_wait`. The fuel argument only bounds the recursion: `max_wait` units
always suffice, since `waited` grows by 5 each step. -/
def waitLoop (avail : Nat → Bool) (max_wait : Nat) : Nat → Nat → SlotResult
| waited, 0 => SlotResult.timeout waited
| waited, fuel + 1 =>
  if waited < max_wait then
    if avail waited then SlotResult.ok waited
    else waitLoop avail max_wait (waited + 5) fuel
  else SlotResult.timeout waited

/-- `OverpassQuery._wait_for_slot`. -/
def wait_for_slot (avail : Nat → Bool) (max_wait : Nat) : SlotResult :=
  waitLoop avail max_wait 0 max_wait

/-- Outcome of one HTTP attempt: a response with a status code, or a
connection-level failure (`requests.RequestException` /
`aiohttp.ClientError`). -/
inductive AttemptOutcome
| status (code : Nat)
| connError
deriving DecidableEq, Repr

/-- Terminal outcome of a retry loop: a 200 response on the given (0-based)
attempt, or `None`. -/
inductive RunOutcome
| success (attempt : Nat)
| noResult
deriving DecidableEq, Repr

/-- Observable statistics of one retry loop: how many HTTP attempts were
made, how many `retry_delay` sleeps were taken, and the outcome. -/
structure RunStats where
  attempts : Nat
  sleeps : Nat
  outcome : RunOutcome
deriving DecidableEq, Repr

/-- The fixed retryable status set of `OverpassQuery.run`:
`(429, 500, 503)`. -/
def retryable (c : Nat) : Bool :=
  c == 429 || c == 500 || c == 503

/-- The `for attempt in range(self.max_retries)` loop of
`OverpassQuery.run`, fed by a transport mapping attempt index to outcome:
200 returns success; a retryable status sleeps and retries; any other
status returns `None` immediately; a connection error sleeps and retries;
an exhausted range returns `None`. -/
def runAux (t : Nat → AttemptOutcome) : Nat → Nat → RunStats
| _, 0 => ⟨0, 0, RunOutcome.noResult⟩
| i, fuel + 1 =>
  match t i with
  | AttemptOutcome.status c =>
    if c == 200 then ⟨1, 0, RunOutcome.success i⟩
    else if retryable c then
      let r := runAux t (i + 1) fuel
      ⟨r.attempts + 1, r.sleeps + 1, r.outcome⟩
    else ⟨1, 0, RunOutcome.noResult⟩
  | AttemptOutcome.connError =>
    let r := runAux t (i + 1) fuel
    ⟨r.attempts + 1, r.sleeps + 1, r.outcome⟩

/-- The retry loop of `OverpassQuery.run`. -/
def run_model (max_retries : Nat) (t : Nat → AttemptOutcome) : RunStats :=
  runAux t 0 max_retries

/-- The `for _ in range(query_obj.max_retries)` loop of
`AsyncOverpassClient._run_query`: 200 returns success; EVERY other status
sleeps `retry_delay` and retries (there is no terminal-status branch); a
connection error sleeps and retries; an exhausted range falls off the loop
and returns `None`. -/
def asyncRunAux (t : Nat → AttemptOutcome) : Nat → Nat → RunStats
| _, 0 => ⟨0, 0, RunOutcome.noResult⟩
| i, fuel + 1 =>
  match t i with
  | AttemptOutcome.status c =>
    if c == 200 then ⟨1, 0, RunOutcome.success i⟩
    else
      let r := asyncRunAux t (i + 1) fuel
      ⟨r.attempts + 1, r.sleeps + 1, r.outcome⟩
  | AttemptOutcome.connError =>
    let r := asyncRunAux t (i + 1) fuel
    ⟨r.attempts + 1, r.sleeps + 1, r.outcome⟩

/-- The retry loop of `AsyncOverpassClient._run_query`. -/
def async_run_model (max_retries : Nat) (t : Nat → AttemptOutcome) : RunStats :=
  asyncRunAux t 0 max_retries

/-- `AsyncOverpassClient._run_query` for one query: `_build_query` runs
before any attempt (its `ValueError` propagates, with zero attempts made),
then the retry loop runs against the transport. -/
def async_runQuery (cfg : QueryCfg) (t : Nat → AttemptOutcome) :
    Except String RunStats :=
  match build_query cfg with
  | Except.error e => Except.error e
  | Except.ok _ => Except.ok (async_run_model cfg.max_retries t)

/-- `AsyncOverpassClient.run_all` via `asyncio.gather`: one result per
query, in input order; a raised exception in any query propagates and the
sibling results are lost. Each query carries its own transport. -/
def run_all : List (QueryCfg × (Nat → AttemptOutcome)) → Except String (List RunStats)
| [] => Except.ok []
| b :: rest =>
  match async_runQuery b.1 b.2 with
  | Except.error e => Except.error e
  | Except.ok r =>
    match run_all rest with
    | Except.error e => Except.error e
    | Except.ok rs => Except.ok (r :: rs)

/-- A network interaction performed by `OverpassQuery.run`: a GET of the
status endpoint (by `_check_availability`, at accumulated wait `t`), or a
GET of the main interpreter endpoint (attempt `i`). -/
inductive NetEvent
| statusPoll (t : Nat)
| mainRequest (i : Nat)
deriving DecidableEq, Repr

/-- How `OverpassQuery.run` ends: `TimeoutError` from `_wait_for_slot`,
`ValueError` from `_build_query`, or the retry loop's result. -/
inductive RunEndState
| slotTimeout
| configError
| finished (s : RunStats)
deriving DecidableEq, Repr

/-- `waitLoop` instrumented with the status-endpoint GET performed by each
`_check_availability` call. -/
def waitLoopTr (avail : Nat → Bool) (max_wait : Nat) :
    Nat → Nat → List NetEvent × SlotResult
| waited, 0 => ([], SlotResult.timeout waited)
| waited, fuel + 1 =>
  if waited < max_wait then
    if avail waited then ([NetEvent.statusPoll waited], SlotResult.ok waited)
    else
      let r := waitLoopTr avail max_wait (waited + 5) fuel
      (NetEvent.statusPoll waited :: r.1, r.2)
  else ([], SlotResult.timeout waited)

/-- `OverpassQuery.run` as a network-event trace: first `_wait_for_slot()`
(with its default `max_wait = 60`, polling the status endpoint), then
`_build_query()` (whose `ValueError` escapes), then the retry loop against
the interpreter endpoint. -/
def run_trace (cfg : QueryCfg) (avail : Nat → Bool) (t : Nat → AttemptOutcome) :
    List NetEvent × RunEndState :=
  let w := waitLoopTr avail 60 0 60
  match w.2 with
  | SlotResult.timeout _ => (w.1, RunEndState.slotTimeout)
  | SlotResult.ok _ =>
    match build_query cfg with
    | Except.error _ => (w.1, RunEndState.configError)
    | Except.ok _ =>
      let r := run_model cfg.max_retries t
      (w.1 ++ (List.range r.attempts).map NetEvent.mainRequest,
       RunEndState.finished r)

/-- The value the last occurrence of key `k` in the tag list carries, if
any (Python dict construction from a key-value sequence is
last-write-wins). -/
def lastTagVal : List (String × Value) → String → Option Value
| [], _ => none
| p :: rest, k =>
  match lastTagVal rest k with
  | some v => some v
  | none => if p.1 == k then some p.2 else none

theorem dictLookup_map_replace (d : List (String × Value)) (k : String) (v : Value)
    (h : d.any (fun p => p.1 == k) = true) :
    dictLookup (d.map (fun p => if p.1 == k then (k, v) else p)) k = some v := by
  induction d with
  | nil => simp at h
  | cons p rest ih =>
    cases hp : (p.1 == k) with
    | true => simp [dictLookup, hp]
    | false =>
      simp only [List.any_cons, hp, Bool.false_or] at h
      simpa [dictLookup, hp] using ih h

theorem dictLookup_append_new (d : List (String × Value)) (k : String) (v : Value)
    (h : d.any (fun p => p.1 == k) = false) :
    dictLookup (d ++ [(k, v)]) k = some v := by
  induction d with
  | nil => simp [dictLookup]
  | cons p rest ih =>
    cases hp : (p.1 == k) with
    | true => simp [List.any_cons, hp] at h
    | false =>
      simp only [List.any_cons, hp, Bool.false_or] at h
      simpa [dictLookup, hp] using ih h

theorem dictLookup_dictInsert_self (d : List (String × Value)) (k : String) (v : Value) :
    dictLookup (dictInsert d k v) k = some v := by
  unfold dictInsert
  cases h : d.any (fun p => p.1 == k) with
  | true =>
    rw [if_pos rfl]
    exact dictLookup_map_replace d k v h
  | false =>
    rw [if_neg (by simp)]
    exact dictLookup_append_new d k v h

theorem dictLookup_map_replace_other (d : List (String × Value)) (k q : String) (v : Value)
    (hne : (q == k) = false) :
    dictLookup (d.map (fun p => if p.1 == q then (q, v) else p)) k = dictLookup d k := by
  induction d with
  | nil => rfl
  | cons p rest ih =>
    cases hp : (p.1 == q) with
    | true =>
      have hp1 : p.1 = q := by simpa using hp
      have hpk : (p.1 == k) = false := by rw [hp1]; exact hne
      simpa [dictLookup, hp, hne, hpk] using ih
    | false =>
      cases hpk : (p.1 == k) with
      | true => simp [dictLookup, hp, hpk]
      | false => simpa [dictLookup, hp, hpk] using ih

theorem dictLookup_append_other (d : List (String × Value)) (k q : String) (v : Value)
    (hne : (q == k) = false) :
    dictLookup (d ++ [(q, v)]) k = dictLookup d k := by
  induction d with
  | nil => simp [dictLookup, hne]
  | cons p rest ih =>
    cases hpk : (p.1 == k) with
    | true => simp [dictLookup, hpk]
    | false => simpa [dictLookup, hpk] using ih

theorem dictLookup_dictInsert_other (d : List (String × Value)) (k q : String) (v : Value)
    (hne : (q == k) = false) :
    dictLookup (dictInsert d q v) k = dictLookup d k := by
  unfold dictInsert
  cases h : d.any (fun p => p.1 == q) with
  | true =>
    rw [if_pos rfl]
    exact dictLookup_map_replace_other d k q v hne
  | false =>
    rw [if_neg (by simp)]
    exact dictLookup_append_other d k q v hne

/-- Helper for stating dict-construction lookups: the first option if
present, else a lookup in the underlying dict. -/
def orElseLookup (o : Option Value) (d : List (String × Value)) (k : String) : Option Value :=
  match o with
  | some v => some v
  | none => dictLookup d k

theorem dictLookup_foldl_insert (ts : List (String × Value)) (d : List (String × Value))
    (k : String) :
    dictLookup (ts.foldl (fun acc p => dictInsert acc p.1 p.2) d) k =
      orElseLookup (lastTagVal ts k) d k := by
  induction ts generalizing d with
  | nil => rfl
  | cons p rest ih =>
    simp only [List.foldl_cons]
    rw [ih (dictInsert d p.1 p.2)]
    cases hlv : lastTagVal rest k with
    | some v => simp [lastTagVal, orElseLookup, hlv]
    | none =>
      cases hp : (p.1 == k) with
      | true =>
        have hp1 : p.1 = k := by simpa using hp
        simp [lastTagVal, orElseLookup, hlv, hp]
        rw [hp1]
        exact dictLookup_dictInsert_self d k p.2
      | false =>
        simp [lastTagVal, orElseLookup, hlv, hp,
          dictLookup_dictInsert_other d k p.1 p.2 hp]

theorem decodeElement_some {el : RawElement} {r : List (String × Value)}
    (h : decodeElement el = some r) :
    ∃ g, r = buildRecord el.id el.tags g ∧ check_coords g = true := by
  cases hg : elementGeom el with
  | error e => simp [decodeElement, hg] at h
  | ok o =>
    cases o with
    | none => simp [decodeElement, hg] at h
    | some g =>
      cases hv : is_valid_geometry (some g) with
      | false => simp [decodeElement, hg, hv] at h
      | true =>
        simp [decodeElement, hg, hv] at h
        exact ⟨g, h.symm, by simpa [is_valid_geometry] using hv⟩

theorem geomCoordsFinite_eq_check (g : Geometry) :
    geomCoordsFinite g = check_coords g := by
  cases g <;> rfl

/-- C1: for every raw element batch passed to `json_to_geodataframe`, every
record in the returned collection holds a geometry under its `geometry`
key, and every coordinate component of that geometry (including components
of nested rings) is finite: no record with a NaN or Infinity coordinate is
ever produced. -/
theorem claim1_decoded_geometry_finite (elements : List RawElement)
    (r : List (String × Value)) (hr : r ∈ json_to_geodataframe elements) :
    ∃ g, dictLookup r "geometry" = some (Value.geom g) ∧ geomCoordsFinite g = true := by
  unfold json_to_geodataframe at hr
  rcases List.mem_filterMap.mp hr with ⟨el, _, hdec⟩
  rcases decodeElement_some hdec with ⟨g, rfl, hfin⟩
  refine ⟨g, ?_, ?_⟩
  · exact dictLookup_dictInsert_self _ "geometry" (Value.geom g)
  · rw [geomCoordsFinite_eq_check]
    exact hfin

/-- A concrete node element used by the C1 witness. -/
def elNodeW : RawElement :=
  ⟨ElemType.node, 1, some (XFloat.fin 0), some (XFloat.fin 0), [], []⟩

/-- C1 witness: the theorem applied to a concrete one-node batch. -/
theorem claim1_witness :
    ∃ g, dictLookup (buildRecord 1 [] (Geometry.point (XFloat.fin 0) (XFloat.fin 0)))
        "geometry" = some (Value.geom g) ∧ geomCoordsFinite g = true :=
  claim1_decoded_geometry_finite [elNodeW]
    (buildRecord 1 [] (Geometry.point (XFloat.fin 0) (XFloat.fin 0))) (by decide)

/-- A concrete node element whose tag mapping contains the reserved key
`id`, used to refute C3. -/
def elC3 : RawElement :=
  ⟨ElemType.node, 7, some (XFloat.fin 0), some (XFloat.fin 0), [],
   [("id", Value.str "collision")]⟩

/-- C3 counterexample: for a node with element id 7 whose tags contain
`id ↦ "collision"`, the decoded record's value under `id` is the TAG
value, not the reserved element id — the record literal
`{"id": el["id"], **tags, "geometry": geom}` spreads the tags after the
reserved `id` entry, so the tag overwrites it. -/
theorem claim3_counterexample :
    decodeElement elC3 =
      some [("id", Value.str "collision"),
            ("geometry", Value.geom (Geometry.point (XFloat.fin 0) (XFloat.fin 0)))] ∧
    dictLookup [("id", Value.str "collision"),
            ("geometry", Value.geom (Geometry.point (XFloat.fin 0) (XFloat.fin 0)))] "id" ≠
      some (Value.int 7) := by
  constructor
  · decide
  · decide

/-- C3 amended: in every decoded record the reserved `geometry` field wins
over any `geometry` tag (it is written last), but a tag named `id`
overwrites the reserved element id (tags are spread after the `id` entry):
the merge is last-write-wins toward the geometry reserved field and toward
the tag for `id`. -/
theorem claim3_amended (el : RawElement) (r : List (String × Value))
    (h : decodeElement el = some r) :
    (∃ g, dictLookup r "geometry" = some (Value.geom g)) ∧
    dictLookup r "id" =
      (match lastTagVal el.tags "id" with
       | some v => some v
       | none => some (Value.int el.id)) := by
  rcases decodeElement_some h with ⟨g, rfl, _⟩
  constructor
  · exact ⟨g, dictLookup_dictInsert_self _ "geometry" (Value.geom g)⟩
  · unfold buildRecord
    rw [dictLookup_dictInsert_other _ _ _ _ (by decide)]
    rw [dictLookup_foldl_insert]
    cases hlv : lastTagVal el.tags "id" with
    | some v => simp [orElseLookup]
    | none => simp [orElseLookup, dictLookup]

/-- C3 witness: the amended theorem applied to the concrete colliding
element. -/
theorem claim3_witness :
    (∃ g, dictLookup [("id", Value.str "collision"),
        ("geometry", Value.geom (Geometry.point (XFloat.fin 0) (XFloat.fin 0)))] "geometry" =
        some (Value.geom g)) ∧
    dictLookup [("id", Value.str "collision"),
        ("geometry", Value.geom (Geometry.point (XFloat.fin 0) (XFloat.fin 0)))] "id" =
      (match lastTagVal elC3.tags "id" with
       | some v => some v
       | none => some (Value.int elC3.id)) :=
  claim3_amended elC3 _ (by decide)

theorem string_join_append (l₁ l₂ : List String) :
    String.join (l₁ ++ l₂) = String.join l₁ ++ String.join l₂ := by
  rw [String.join_eq, String.join_eq, String.join_eq, List.map_append, List.flatten_append]
  rfl

theorem format_tags_append (ts₁ ts₂ : List (String × TagVal)) :
    format_tags (ts₁ ++ ts₂) = format_tags ts₁ ++ format_tags ts₂ := by
  unfold format_tags
  rw [List.flatMap_append]
  exact string_join_append _ _

/-- C4: tag rendering per entry — `True` → `[k]`; `False` → `[!k]`; a
string starting with `~` → `[k~"p"]` with the pattern after the `~` used
verbatim and unanchored; otherwise a string containing `|` → `[k~"^v$"]`
(anchored alternation); any other string → `[k="v"]` — and the rendered
entries concatenate in the mapping's stored order with no separators. -/
theorem claim4_tag_rendering (k s : String) (ts₁ ts₂ : List (String × TagVal)) :
    formatTag k TagVal.pyTrue = ["[" ++ k ++ "]"] ∧
    formatTag k TagVal.pyFalse = ["[!" ++ k ++ "]"] ∧
    (startswithTilde s = true →
      formatTag k (TagVal.pyStr s) = ["[" ++ k ++ "~\"" ++ s.drop 1 ++ "\"]"]) ∧
    (startswithTilde s = false → containsPipe s = true →
      formatTag k (TagVal.pyStr s) = ["[" ++ k ++ "~\"^" ++ s ++ "$\"]"]) ∧
    (startswithTilde s = false → containsPipe s = false →
      formatTag k (TagVal.pyStr s) = ["[" ++ k ++ "=\"" ++ s ++ "\"]"]) ∧
    format_tags (ts₁ ++ ts₂) = format_tags ts₁ ++ format_tags ts₂ := by
  refine ⟨rfl, rfl, ?_, ?_, ?_, format_tags_append ts₁ ts₂⟩
  · intro h1
    simp [formatTag, h1]
  · intro h1 h2
    simp [formatTag, h1, h2]
  · intro h1 h2
    simp [formatTag, h1, h2]

/-- C4 witness: the spec's five rendering examples and the separator-free
concatenation, obtained from the theorem at concrete inputs. -/
theorem claim4_witness :
    formatTag "amenity" (TagVal.pyStr "hospital|clinic") = ["[amenity~\"^hospital|clinic$\"]"] ∧
    formatTag "k" (TagVal.pyStr "~foo") = ["[k~\"foo\"]"] ∧
    formatTag "k" (TagVal.pyStr "bar") = ["[k=\"bar\"]"] ∧
    formatTag "k" TagVal.pyTrue = ["[k]"] ∧
    formatTag "k" TagVal.pyFalse = ["[!k]"] ∧
    format_tags ([("a", TagVal.pyTrue)] ++ [("amenity", TagVal.pyStr "hospital|clinic")]) =
      format_tags [("a", TagVal.pyTrue)] ++
        format_tags [("amenity", TagVal.pyStr "hospital|clinic")] := by
  have h1 := claim4_tag_rendering "amenity" "hospital|clinic"
    [("a", TagVal.pyTrue)] [("amenity", TagVal.pyStr "hospital|clinic")]
  have h2 := claim4_tag_rendering "k" "~foo" [] []
  have h3 := claim4_tag_rendering "k" "bar" [] []
  exact ⟨(h1.2.2.2.1 (by decide) (by decide)).trans (by decide),
         (h2.2.2.1 (by decide)).trans (by decide),
         (h3.2.2.2.2.1 (by decide) (by decide)).trans (by decide),
         h2.1.trans (by decide),
         h2.2.1.trans (by decide),
         h1.2.2.2.2.2⟩

/-- C10: a tag entry whose value is neither the boolean `True`, the boolean
`False`, nor a string (an int or `None`) emits no bracket clause at all:
the entry is silently omitted from the rendered filter. -/
theorem claim10_nonstring_omitted (k : String) (v : TagVal)
    (pre post : List (String × TagVal))
    (h1 : v ≠ TagVal.pyTrue) (h2 : v ≠ TagVal.pyFalse)
    (h3 : ∀ s, v ≠ TagVal.pyStr s) :
    formatTag k v = [] ∧
    format_tags (pre ++ (k, v) :: post) = format_tags (pre ++ post) := by
  have hfmt : formatTag k v = [] := by
    cases v with
    | pyTrue => exact absurd rfl h1
    | pyFalse => exact absurd rfl h2
    | pyStr s => exact absurd rfl (h3 s)
    | pyInt n => rfl
    | pyNone => rfl
  refine ⟨hfmt, ?_⟩
  unfold format_tags
  rw [List.flatMap_append, List.flatMap_append, List.flatMap_cons]
  simp [hfmt]

/-- C10 witness: an integer-valued entry inside a mixed mapping renders
nothing. -/
theorem claim10_witness :
    formatTag "height" (TagVal.pyInt 5) = [] ∧
    format_tags ([("a", TagVal.pyTrue)] ++ ("height", TagVal.pyInt 5) :: [("b", TagVal.pyStr "x")]) =
      format_tags ([("a", TagVal.pyTrue)] ++ [("b", TagVal.pyStr "x")]) :=
  claim10_nonstring_omitted "height" (TagVal.pyInt 5) [("a", TagVal.pyTrue)]
    [("b", TagVal.pyStr "x")] (by decide) (by decide)
    (fun s h => TagVal.noConfusion h)

/-- Spec-level filter of a way's point list: the coordinate pairs of the
points whose two components are both present and finite, in order. -/
def finiteCoords (ps : List RawPoint) : List (XFloat × XFloat) :=
  ps.filterMap (fun pt =>
    match pt.lon, pt.lat with
    | some lo, some la => if lo.isfinite && la.isfinite then some (lo, la) else none
    | _, _ => none)

theorem filterPoints_ok (ps : List RawPoint)
    (h : ∀ pt ∈ ps, pt.lon.isSome ∧ pt.lat.isSome) :
    filterPoints ps = Except.ok (finiteCoords ps) := by
  induction ps with
  | nil => rfl
  | cons pt rest ih =>
    obtain ⟨hlon, hlat⟩ := h pt (List.mem_cons_self pt rest)
    have hrest := ih (fun p hp => h p (List.mem_cons_of_mem pt hp))
    obtain ⟨lo, hlo⟩ := Option.isSome_iff_exists.mp hlon
    obtain ⟨la, hla⟩ := Option.isSome_iff_exists.mp hlat
    cases hfo : lo.isfinite with
    | false => simp [filterPoints, finiteCoords, List.filterMap_cons, hlo, hla, hfo, hrest]
    | true =>
      cases hfa : la.isfinite with
      | false => simp [filterPoints, finiteCoords, List.filterMap_cons, hlo, hla, hfo, hfa, hrest]
      | true => simp [filterPoints, finiteCoords, List.filterMap_cons, hlo, hla, hfo, hfa, hrest]

theorem mem_finiteCoords_check_pair (ps : List RawPoint) (p : XFloat × XFloat)
    (hp : p ∈ finiteCoords ps) : check_pair p = true := by
  unfold finiteCoords at hp
  rcases List.mem_filterMap.mp hp with ⟨pt, _, heq⟩
  cases hlo : pt.lon with
  | none => simp [hlo] at heq
  | some lo =>
    cases hla : pt.lat with
    | none => simp [hlo, hla] at heq
    | some la =>
      cases hf : (lo.isfinite && la.isfinite) with
      | false => simp [hlo, hla, hf] at heq
      | true =>
        simp [hlo, hla, hf] at heq
        rw [← heq]
        simpa [check_pair] using hf

theorem elementGeom_way (el : RawElement) (hty : el.type = ElemType.way)
    (c : XFloat × XFloat) (cs : List (XFloat × XFloat))
    (hfp : filterPoints el.geometry = Except.ok (c :: cs)) :
    elementGeom el =
      (if pairBeq c ((c :: cs).getLast (by simp)) = true ∧ 3 ≤ (c :: cs).length then
        (match shapelyPolygon (c :: cs) with
         | Except.error e => Except.error e
         | Except.ok g => Except.ok (some g))
      else
        (match shapelyLineString (c :: cs) with
         | Except.error e => Except.error e
         | Except.ok g => Except.ok (some g))) := by
  simp [elementGeom, hty, hfp]

/-- C6 amended: for every way element (all of whose point entries carry
both coordinate keys), decoding first filters the point list to the points
with both components finite; if no points remain the element is dropped.
If the filtered list's first point equals its last point and its length is
at least 3, the Polygon branch is taken: with at least 4 points the
element decodes to a Polygon record, while a closed 3-point list is
dropped (the Polygon constructor rejects a closed ring of fewer than 4
coordinates and the per-element handler catches the exception). In every
other case the LineString branch is taken: with at least 2 points the
element decodes to a LineString record, while a single-point list is
dropped (the LineString constructor rejects a one-point array). -/
theorem claim6_way_classification (el : RawElement) (hty : el.type = ElemType.way)
    (hpts : ∀ pt ∈ el.geometry, pt.lon.isSome ∧ pt.lat.isSome) :
    (finiteCoords el.geometry = [] → decodeElement el = none) ∧
    (∀ c cs, finiteCoords el.geometry = c :: cs →
      ((pairBeq c ((c :: cs).getLast (by simp)) = true ∧ 3 ≤ (c :: cs).length) →
        (4 ≤ (c :: cs).length →
          decodeElement el = some (buildRecord el.id el.tags (Geometry.polygon [c :: cs]))) ∧
        ((c :: cs).length = 3 → decodeElement el = none)) ∧
      (¬(pairBeq c ((c :: cs).getLast (by simp)) = true ∧ 3 ≤ (c :: cs).length) →
        (2 ≤ (c :: cs).length →
          decodeElement el = some (buildRecord el.id el.tags (Geometry.linestring (c :: cs)))) ∧
        ((c :: cs).length = 1 → decodeElement el = none))) := by
  have hfp := filterPoints_ok el.geometry hpts
  constructor
  · intro hnil
    rw [hnil] at hfp
    have hgeom : elementGeom el = Except.ok none := by
      simp [elementGeom, hty, hfp]
    simp [decodeElement, hgeom]
  · intro c cs hcons
    rw [hcons] at hfp
    have hall : ∀ p ∈ c :: cs, check_pair p = true := by
      intro p hp
      exact mem_finiteCoords_check_pair el.geometry p (by rw [hcons]; exact hp)
    have hallb : (c :: cs).all check_pair = true := by
      rw [List.all_eq_true]
      exact hall
    have hgeom := elementGeom_way el hty c cs hfp
    constructor
    · intro hcond
      rw [if_pos hcond] at hgeom
      constructor
      · intro h4
        have hsp : shapelyPolygon (c :: cs) = Except.ok (Geometry.polygon [c :: cs]) := by
          unfold shapelyPolygon
          rw [if_pos (Or.inr h4)]
        rw [hsp] at hgeom
        simp at hgeom
        have hval : is_valid_geometry (some (Geometry.polygon [c :: cs])) = true := by
          simp [is_valid_geometry, check_coords, hallb]
        simp [decodeElement, hgeom, hval]
      · intro h3
        have hsp : shapelyPolygon (c :: cs) = Except.error () := by
          unfold shapelyPolygon
          rw [if_neg (by omega)]
        rw [hsp] at hgeom
        simp at hgeom
        simp [decodeElement, hgeom]
    · intro hcond
      rw [if_neg hcond] at hgeom
      constructor
      · intro h2
        have hsl : shapelyLineString (c :: cs) = Except.ok (Geometry.linestring (c :: cs)) := by
          unfold shapelyLineString
          rw [if_neg (by omega)]
        rw [hsl] at hgeom
        simp at hgeom
        have hval : is_valid_geometry (some (Geometry.linestring (c :: cs))) = true := by
          simp [is_valid_geometry, check_coords, hallb]
        simp [decodeElement, hgeom, hval]
      · intro h1
        have hsl : shapelyLineString (c :: cs) = Except.error () := by
          unfold shapelyLineString
          rw [if_pos h1]
        rw [hsl] at hgeom
        simp at hgeom
        simp [decodeElement, hgeom]

/-- Concrete coordinate pairs and raw points for the way witnesses. -/
def pA : XFloat × XFloat := (XFloat.fin 0, XFloat.fin 0)

/-- The pair (1, 0). -/
def pB : XFloat × XFloat := (XFloat.fin 1, XFloat.fin 0)

/-- The pair (1, 1). -/
def pC : XFloat × XFloat := (XFloat.fin 1, XFloat.fin 1)

/-- The raw point (0, 0). -/
def rpA : RawPoint := ⟨some (XFloat.fin 0), some (XFloat.fin 0)⟩

/-- The raw point (1, 0). -/
def rpB : RawPoint := ⟨some (XFloat.fin 1), some (XFloat.fin 0)⟩

/-- The raw point (1, 1). -/
def rpC : RawPoint := ⟨some (XFloat.fin 1), some (XFloat.fin 1)⟩

/-- A closed 4-point way: (0,0),(1,0),(1,1),(0,0). -/
def elWay4 : RawElement := ⟨ElemType.way, 1, none, none, [rpA, rpB, rpC, rpA], []⟩

/-- An open 3-point way: (0,0),(1,0),(1,1). -/
def elWay3 : RawElement := ⟨ElemType.way, 2, none, none, [rpA, rpB, rpC], []⟩

/-- A way with a single finite point. -/
def elWay1 : RawElement := ⟨ElemType.way, 4, none, none, [rpA], []⟩

/-- A way whose filtered list is the closed 3-point ring (0,0),(1,0),(0,0). -/
def elWayRing3 : RawElement := ⟨ElemType.way, 5, none, none, [rpA, rpB, rpA], []⟩

/-- C6 counterexample: a way with exactly one finite point falls into the
claim's "every other case" yet is dropped — the LineString constructor
rejects a one-point array and the per-element handler turns the exception
into an element drop — and a closed 3-point way satisfies the claim's
Polygon condition yet is dropped likewise (a closed ring needs at least 4
coordinates): in neither case is the claimed record produced. -/
theorem claim6_counterexample :
    decodeElement elWay1 = none ∧
    decodeElement elWay1 ≠ some (buildRecord 4 [] (Geometry.linestring [pA])) ∧
    decodeElement elWayRing3 = none ∧
    decodeElement elWayRing3 ≠ some (buildRecord 5 [] (Geometry.polygon [[pA, pB, pA]])) := by
  refine ⟨by decide, by decide, by decide, by decide⟩

/-- C6 witness: the spec's two examples under the amended theorem — the
closed 4-point list decodes to a Polygon record, the open 3-point list to
a LineString record — plus the two degenerate drops at concrete ways. -/
theorem claim6_witness :
    decodeElement elWay4 = some (buildRecord 1 [] (Geometry.polygon [[pA, pB, pC, pA]])) ∧
    decodeElement elWay3 = some (buildRecord 2 [] (Geometry.linestring [pA, pB, pC])) ∧
    decodeElement elWay1 = none ∧
    decodeElement elWayRing3 = none := by
  refine ⟨?_, ?_, ?_, ?_⟩
  · exact (((claim6_way_classification elWay4 (by decide) (by decide)).2 pA [pB, pC, pA]
      (by decide)).1 (by decide)).1 (by decide)
  · exact (((claim6_way_classification elWay3 (by decide) (by decide)).2 pA [pB, pC]
      (by decide)).2 (by decide)).1 (by decide)
  · exact (((claim6_way_classification elWay1 (by decide) (by decide)).2 pA []
      (by decide)).2 (by decide)).2 (by decide)
  · exact (((claim6_way_classification elWayRing3 (by decide) (by decide)).2 pA [pB, pA]
      (by decide)).1 (by decide)).2 (by decide)

/-- Whether evaluating the comprehension's filter on this point raises a
`KeyError`: a missing `lon` always raises; a missing `lat` raises only when
the lon was present and finite (otherwise the `and` short-circuits and the
lat is never read). -/
def pointRaises (pt : RawPoint) : Bool :=
  match pt.lon with
  | none => true
  | some lo => if lo.isfinite then pt.lat.isNone else false

theorem filterPoints_error (ps₁ : List RawPoint) (pt : RawPoint) (ps₂ : List RawPoint)
    (h1 : ∀ p ∈ ps₁, pointRaises p = false) (h2 : pointRaises pt = true) :
    filterPoints (ps₁ ++ pt :: ps₂) = Except.error () := by
  induction ps₁ with
  | nil =>
    simp only [List.nil_append]
    cases hlo : pt.lon with
    | none => simp [filterPoints, hlo]
    | some lo =>
      cases hfo : lo.isfinite with
      | false => simp [pointRaises, hlo, hfo] at h2
      | true =>
        cases hla : pt.lat with
        | none => simp [filterPoints, hlo, hfo, hla]
        | some la => simp [pointRaises, hlo, hfo, hla] at h2
  | cons p rest ih =>
    have hp := h1 p (List.mem_cons_self p rest)
    have hrest := ih (fun q hq => h1 q (List.mem_cons_of_mem p hq))
    cases hlo : p.lon with
    | none => simp [pointRaises, hlo] at hp
    | some lo =>
      cases hfo : lo.isfinite with
      | false => simp [filterPoints, hlo, hfo, hrest]
      | true =>
        cases hla : p.lat with
        | none => simp [pointRaises, hlo, hfo, hla] at hp
        | some la =>
          cases hfa : la.isfinite with
          | false => simp [filterPoints, hlo, hfo, hla, hfa, hrest]
          | true => simp [filterPoints, hlo, hfo, hla, hfa, hrest]

/-- A way whose first geometry entry has a non-finite `lon` and a missing
`lat` key, followed by two good points. -/
def elC9 : RawElement :=
  ⟨ElemType.way, 11, none, none, [⟨some XFloat.inf, none⟩, rpA, rpB], []⟩

/-- C9 counterexample: a way whose point list contains an entry missing the
`lat` key is NOT dropped — the finiteness test on its non-finite `lon`
short-circuits before `pt["lat"]` is read, the point is merely filtered
out, and the element decodes to a LineString of the remaining points. -/
theorem claim9_counterexample :
    decodeElement elC9 = some (buildRecord 11 [] (Geometry.linestring [pA, pB])) ∧
    decodeElement elC9 ≠ none := by
  constructor
  · decide
  · decide

/-- C9 amended: an entry missing the `lon` key — or missing the `lat` key
while its `lon` is present and finite — makes the key access raise inside
the finiteness filter; the whole element is then dropped via the
per-element handler (not just the offending point), and decoding of the
remaining elements in the batch continues. (An entry whose `lon` is
non-finite and whose `lat` is missing is instead silently filtered out.) -/
theorem claim9_amended (ps₁ : List RawPoint) (pt : RawPoint) (ps₂ : List RawPoint)
    (h1 : ∀ p ∈ ps₁, pointRaises p = false) (h2 : pointRaises pt = true) :
    filterPoints (ps₁ ++ pt :: ps₂) = Except.error () ∧
    (∀ el : RawElement, el.type = ElemType.way → el.geometry = ps₁ ++ pt :: ps₂ →
      decodeElement el = none) ∧
    (∀ (pre post : List RawElement) (el : RawElement), decodeElement el = none →
      json_to_geodataframe (pre ++ el :: post) =
        json_to_geodataframe pre ++ json_to_geodataframe post) := by
  have herr := filterPoints_error ps₁ pt ps₂ h1 h2
  refine ⟨herr, ?_, ?_⟩
  · intro el hty hgeo
    have hgeom : elementGeom el = Except.error () := by
      simp [elementGeom, hty, hgeo, herr]
    simp [decodeElement, hgeom]
  · intro pre post el hdec
    simp [json_to_geodataframe, List.filterMap_append, List.filterMap_cons, hdec]

/-- C9 witness: a point genuinely missing `lon` aborts its whole element via
the per-element handler while sibling elements of the batch still decode. -/
theorem claim9_witness :
    filterPoints ([rpA] ++ (⟨none, some (XFloat.fin 0)⟩ : RawPoint) :: [rpB]) = Except.error () ∧
    (∀ el : RawElement, el.type = ElemType.way →
      el.geometry = [rpA] ++ (⟨none, some (XFloat.fin 0)⟩ : RawPoint) :: [rpB] →
      decodeElement el = none) ∧
    (∀ (pre post : List RawElement) (el : RawElement), decodeElement el = none →
      json_to_geodataframe (pre ++ el :: post) =
        json_to_geodataframe pre ++ json_to_geodataframe post) :=
  claim9_amended [rpA] ⟨none, some (XFloat.fin 0)⟩ [rpB] (by decide) (by decide)

theorem waitLoop_timeout (avail : Nat → Bool) (mw : Nat)
    (hnever : ∀ u, avail u = false) :
    ∀ fuel waited, mw ≤ waited + 5 * fuel → waited < mw + 5 →
      ∃ e, waitLoop avail mw waited fuel = SlotResult.timeout e ∧
        mw ≤ e ∧ e < mw + 5 ∧ e % 5 = waited % 5 := by
  intro fuel
  induction fuel with
  | zero =>
    intro waited hle hlt
    exact ⟨waited, rfl, by omega, hlt, rfl⟩
  | succ f ih =>
    intro waited hle hlt
    by_cases hw : waited < mw
    · have hstep : waitLoop avail mw waited (f + 1) = waitLoop avail mw (waited + 5) f := by
        simp [waitLoop, hw, hnever waited]
      rw [hstep]
      obtain ⟨e, he, h1, h2, h3⟩ := ih (waited + 5) (by omega) (by omega)
      exact ⟨e, he, h1, h2, by omega⟩
    · refine ⟨waited, ?_, by omega, hlt, rfl⟩
      simp [waitLoop, hw]

theorem waitLoop_ok (avail : Nat → Bool) (mw : Nat) :
    ∀ (k : Nat), ∀ waited fuel, (∀ j, j < k → avail (waited + 5 * j) = false) →
      avail (waited + 5 * k) = true → waited + 5 * k < mw → k < fuel →
      waitLoop avail mw waited fuel = SlotResult.ok (waited + 5 * k) := by
  intro k
  induction k with
  | zero =>
    intro waited fuel hfalse htrue hlt hfuel
    cases fuel with
    | zero => omega
    | succ f =>
      have hw : waited < mw := by omega
      have h0 : avail waited = true := by simpa using htrue
      simp [waitLoop, hw, h0]
  | succ kk ih =>
    intro waited fuel hfalse htrue hlt hfuel
    cases fuel with
    | zero => omega
    | succ f =>
      have hw : waited < mw := by omega
      have h0 : avail waited = false := by simpa using hfalse 0 (by omega)
      have hstep : waitLoop avail mw waited (f + 1) = waitLoop avail mw (waited + 5) f := by
        simp [waitLoop, hw, h0]
      rw [hstep]
      have hres := ih (waited + 5) f
        (fun j hj => by
          have hjf := hfalse (j + 1) (by omega)
          have harg : waited + 5 * (j + 1) = waited + 5 + 5 * j := by ring
          rwa [harg] at hjf)
        (by
          have harg : waited + 5 * (kk + 1) = waited + 5 + 5 * kk := by ring
          rwa [harg] at htrue)
        (by omega) (by omega)
      rw [hres]
      congr 1
      ring

/-- C5 amended: when the status endpoint never reports availability,
`_wait_for_slot` polls on the fixed 5-second interval and raises its
timeout at the first poll-grid point at or after `max_wait` — never before
`max_wait`, but up to one interval after it (exactly at `max_wait` only
when `max_wait` is a multiple of 5); when availability is observed at some
in-window poll, it returns immediately at that poll. -/
theorem claim5_amended (avail : Nat → Bool) (max_wait : Nat) :
    ((∀ u, avail u = false) →
      ∃ e, wait_for_slot avail max_wait = SlotResult.timeout e ∧
        max_wait ≤ e ∧ e < max_wait + 5 ∧ e % 5 = 0) ∧
    (∀ k, (∀ j, j < k → avail (5 * j) = false) → avail (5 * k) = true →
      5 * k < max_wait → wait_for_slot avail max_wait = SlotResult.ok (5 * k)) := by
  constructor
  · intro hnever
    obtain ⟨e, he, h1, h2, h3⟩ := waitLoop_timeout avail max_wait hnever max_wait 0
      (by omega) (by omega)
    exact ⟨e, he, h1, h2, by omega⟩
  · intro k hfalse htrue hlt
    have hres := waitLoop_ok avail max_wait k 0 max_wait
      (fun j hj => by simpa using hfalse j hj)
      (by simpa using htrue) (by omega) (by omega)
    simpa [wait_for_slot] using hres

/-- C5 counterexample: with the fixed 5-second poll interval and
`max_wait = 7`, a never-available status endpoint raises `TimeoutError`
after 10 elapsed seconds — after, not exactly at, the configured max-wait
boundary. -/
theorem claim5_counterexample :
    wait_for_slot (fun _ => false) 7 = SlotResult.timeout 10 ∧ (10 : Nat) ≠ 7 := by
  constructor
  · decide
  · decide

/-- C5 witness: the amended theorem at the default `max_wait = 60` with a
never-available endpoint, and with an endpoint first available at the
second poll. -/
theorem claim5_witness :
    (∃ e, wait_for_slot (fun _ => false) 60 = SlotResult.timeout e ∧
      60 ≤ e ∧ e < 65 ∧ e % 5 = 0) ∧
    wait_for_slot (fun u => u == 5) 60 = SlotResult.ok (5 * 1) := by
  constructor
  · exact (claim5_amended (fun _ => false) 60).1 (fun u => rfl)
  · exact (claim5_amended (fun u => u == 5) 60).2 1
      (by
        intro j hj
        have hj0 : j = 0 := by omega
        subst hj0
        decide)
      (by decide) (by decide)

/-- Whether the synchronous loop treats this attempt outcome as transient
(sleep `retry_delay`, then retry): a connection error, or a status in the
retryable set. -/
def transientB : AttemptOutcome → Bool
| AttemptOutcome.connError => true
| AttemptOutcome.status c => retryable c

theorem retryable_ne_200 (c : Nat) (h : retryable c = true) : (c == 200) = false := by
  simp [retryable] at h
  rcases h with (h | h) | h <;> subst h <;> decide

theorem runAux_200 (t : Nat → AttemptOutcome) (i f c : Nat)
    (ht : t i = AttemptOutcome.status c) (h : (c == 200) = true) :
    runAux t i (f + 1) = ⟨1, 0, RunOutcome.success i⟩ := by
  simp [runAux, ht, h]

theorem runAux_terminal (t : Nat → AttemptOutcome) (i f c : Nat)
    (ht : t i = AttemptOutcome.status c) (h200 : (c == 200) = false)
    (hr : retryable c = false) :
    runAux t i (f + 1) = ⟨1, 0, RunOutcome.noResult⟩ := by
  simp [runAux, ht, h200, hr]

theorem runAux_transient_step (t : Nat → AttemptOutcome) (i f : Nat)
    (h : transientB (t i) = true) :
    runAux t i (f + 1) =
      ⟨(runAux t (i + 1) f).attempts + 1, (runAux t (i + 1) f).sleeps + 1,
       (runAux t (i + 1) f).outcome⟩ := by
  cases ht : t i with
  | connError => simp [runAux, ht]
  | status c =>
    have hr : retryable c = true := by simpa [transientB, ht] using h
    have h200 := retryable_ne_200 c hr
    simp [runAux, ht, h200, hr]

theorem runAux_attempts_le (t : Nat → AttemptOutcome) :
    ∀ fuel i, (runAux t i fuel).attempts ≤ fuel := by
  intro fuel
  induction fuel with
  | zero => intro i; simp [runAux]
  | succ f ih =>
    intro i
    cases ht : t i with
    | connError =>
      rw [runAux_transient_step t i f (by simp [transientB, ht])]
      have hle := ih (i + 1)
      simp only []
      omega
    | status c =>
      cases h200 : (c == 200) with
      | true =>
        rw [runAux_200 t i f c ht h200]
        simp
      | false =>
        cases hr : retryable c with
        | true =>
          rw [runAux_transient_step t i f (by simp [transientB, ht, hr])]
          have hle := ih (i + 1)
          simp only []
          omega
        | false =>
          rw [runAux_terminal t i f c ht h200 hr]
          simp

theorem runAux_attempts_pos (t : Nat → AttemptOutcome) (fuel i : Nat) (hf : 1 ≤ fuel) :
    1 ≤ (runAux t i fuel).attempts := by
  obtain ⟨f, rfl⟩ : ∃ f, fuel = f + 1 := ⟨fuel - 1, by omega⟩
  cases ht : t i with
  | connError =>
    rw [runAux_transient_step t i f (by simp [transientB, ht])]
    simp
  | status c =>
    cases h200 : (c == 200) with
    | true =>
      rw [runAux_200 t i f c ht h200]
    | false =>
      cases hr : retryable c with
      | true =>
        rw [runAux_transient_step t i f (by simp [transientB, ht, hr])]
        simp
      | false =>
        rw [runAux_terminal t i f c ht h200 hr]

theorem runAux_no200 (t : Nat → AttemptOutcome) :
    ∀ fuel i, (∀ j, j < fuel → t (i + j) ≠ AttemptOutcome.status 200) →
      (runAux t i fuel).outcome = RunOutcome.noResult := by
  intro fuel
  induction fuel with
  | zero => intro i h; rfl
  | succ f ih =>
    intro i h
    have hshift : ∀ j, j < f → t (i + 1 + j) ≠ AttemptOutcome.status 200 := by
      intro j hj
      have hh := h (j + 1) (by omega)
      rwa [show i + (j + 1) = i + 1 + j from by ring] at hh
    cases ht : t i with
    | connError =>
      rw [runAux_transient_step t i f (by simp [transientB, ht])]
      exact ih (i + 1) hshift
    | status c =>
      have h200 : (c == 200) = false := by
        cases hcc : (c == 200) with
        | false => rfl
        | true =>
          have hc : c = 200 := by simpa using hcc
          subst hc
          have h0 := h 0 (by omega)
          simp at h0
          exact absurd ht h0
      cases hr : retryable c with
      | true =>
        rw [runAux_transient_step t i f (by simp [transientB, ht, hr])]
        exact ih (i + 1) hshift
      | false =>
        rw [runAux_terminal t i f c ht h200 hr]

theorem runAux_transient_progress (t : Nat → AttemptOutcome) :
    ∀ (k : Nat), ∀ i fuel, (∀ j, j ≤ k → transientB (t (i + j)) = true) → k + 1 < fuel →
      k + 1 ≤ (runAux t i fuel).sleeps ∧ k + 2 ≤ (runAux t i fuel).attempts := by
  intro k
  induction k with
  | zero =>
    intro i fuel htr hf
    obtain ⟨f, rfl⟩ : ∃ f, fuel = f + 1 := ⟨fuel - 1, by omega⟩
    rw [runAux_transient_step t i f (by simpa using htr 0 (by omega))]
    have hpos := runAux_attempts_pos t f (i + 1) (by omega)
    constructor
    · simp
    · simp only []
      omega
  | succ kk ih =>
    intro i fuel htr hf
    obtain ⟨f, rfl⟩ : ∃ f, fuel = f + 1 := ⟨fuel - 1, by omega⟩
    rw [runAux_transient_step t i f (by simpa using htr 0 (by omega))]
    have hrec := ih (i + 1) f
      (fun j hj => by
        have hh := htr (j + 1) (by omega)
        rwa [show i + (j + 1) = i + 1 + j from by ring] at hh)
      (by omega)
    have h1 := hrec.1
    have h2 := hrec.2
    constructor
    · simp only []
      omega
    · simp only []
      omega

theorem runAux_terminal_immediate (t : Nat → AttemptOutcome) :
    ∀ (k : Nat), ∀ i fuel c, (∀ j, j < k → transientB (t (i + j)) = true) →
      t (i + k) = AttemptOutcome.status c → (c == 200) = false → retryable c = false →
      k < fuel → runAux t i fuel = ⟨k + 1, k, RunOutcome.noResult⟩ := by
  intro k
  induction k with
  | zero =>
    intro i fuel c hpre ht h200 hr hf
    obtain ⟨f, rfl⟩ : ∃ f, fuel = f + 1 := ⟨fuel - 1, by omega⟩
    exact runAux_terminal t i f c (by simpa using ht) h200 hr
  | succ kk ih =>
    intro i fuel c hpre ht h200 hr hf
    obtain ⟨f, rfl⟩ : ∃ f, fuel = f + 1 := ⟨fuel - 1, by omega⟩
    rw [runAux_transient_step t i f (by simpa using hpre 0 (by omega))]
    rw [ih (i + 1) f c
      (fun j hj => by
        have hh := hpre (j + 1) (by omega)
        rwa [show i + (j + 1) = i + 1 + j from by ring] at hh)
      (by rwa [show i + (kk + 1) = i + 1 + kk from by ring] at ht)
      h200 hr (by omega)]

theorem runAux_success_at (t : Nat → AttemptOutcome) :
    ∀ (k : Nat), ∀ i fuel, (∀ j, j < k → transientB (t (i + j)) = true) →
      t (i + k) = AttemptOutcome.status 200 → k < fuel →
      runAux t i fuel = ⟨k + 1, k, RunOutcome.success (i + k)⟩ := by
  intro k
  induction k with
  | zero =>
    intro i fuel hpre ht hf
    obtain ⟨f, rfl⟩ : ∃ f, fuel = f + 1 := ⟨fuel - 1, by omega⟩
    rw [runAux_200 t i f 200 (by simpa using ht) (by decide)]
    simp
  | succ kk ih =>
    intro i fuel hpre ht hf
    obtain ⟨f, rfl⟩ : ∃ f, fuel = f + 1 := ⟨fuel - 1, by omega⟩
    rw [runAux_transient_step t i f (by simpa using hpre 0 (by omega))]
    rw [ih (i + 1) f
      (fun j hj => by
        have hh := hpre (j + 1) (by omega)
        rwa [show i + (j + 1) = i + 1 + j from by ring] at hh)
      (by rwa [show i + (kk + 1) = i + 1 + kk from by ring] at ht)
      (by omega)]
    have harg : i + 1 + kk = i + (kk + 1) := by ring
    simp [harg]

theorem asyncRunAux_200 (t : Nat → AttemptOutcome) (i f c : Nat)
    (ht : t i = AttemptOutcome.status c) (h : (c == 200) = true) :
    asyncRunAux t i (f + 1) = ⟨1, 0, RunOutcome.success i⟩ := by
  simp [asyncRunAux, ht, h]

theorem asyncRunAux_retry_step (t : Nat → AttemptOutcome) (i f : Nat)
    (h : t i ≠ AttemptOutcome.status 200) :
    asyncRunAux t i (f + 1) =
      ⟨(asyncRunAux t (i + 1) f).attempts + 1, (asyncRunAux t (i + 1) f).sleeps + 1,
       (asyncRunAux t (i + 1) f).outcome⟩ := by
  cases ht : t i with
  | connError => simp [asyncRunAux, ht]
  | status c =>
    have h200 : (c == 200) = false := by
      cases hcc : (c == 200) with
      | false => rfl
      | true =>
        have hc : c = 200 := by simpa using hcc
        subst hc
        exact absurd ht h
    simp [asyncRunAux, ht, h200]

theorem asyncRunAux_attempts_le (t : Nat → AttemptOutcome) :
    ∀ fuel i, (asyncRunAux t i fuel).attempts ≤ fuel := by
  intro fuel
  induction fuel with
  | zero => intro i; simp [asyncRunAux]
  | succ f ih =>
    intro i
    by_cases ht : t i = AttemptOutcome.status 200
    · rw [asyncRunAux_200 t i f 200 ht (by decide)]
      simp
    · rw [asyncRunAux_retry_step t i f ht]
      have hle := ih (i + 1)
      simp only []
      omega

theorem asyncRunAux_attempts_pos (t : Nat → AttemptOutcome) (fuel i : Nat) (hf : 1 ≤ fuel) :
    1 ≤ (asyncRunAux t i fuel).attempts := by
  obtain ⟨f, rfl⟩ : ∃ f, fuel = f + 1 := ⟨fuel - 1, by omega⟩
  by_cases ht : t i = AttemptOutcome.status 200
  · rw [asyncRunAux_200 t i f 200 ht (by decide)]
  · rw [asyncRunAux_retry_step t i f ht]
    simp

theorem asyncRunAux_no200 (t : Nat → AttemptOutcome) :
    ∀ fuel i, (∀ j, j < fuel → t (i + j) ≠ AttemptOutcome.status 200) →
      (asyncRunAux t i fuel).outcome = RunOutcome.noResult := by
  intro fuel
  induction fuel with
  | zero => intro i h; rfl
  | succ f ih =>
    intro i h
    have h0 : t i ≠ AttemptOutcome.status 200 := by
      have hh := h 0 (by omega)
      simpa using hh
    rw [asyncRunAux_retry_step t i f h0]
    exact ih (i + 1) (fun j hj => by
      have hh := h (j + 1) (by omega)
      rwa [show i + (j + 1) = i + 1 + j from by ring] at hh)

theorem asyncRunAux_progress (t : Nat → AttemptOutcome) :
    ∀ (k : Nat), ∀ i fuel, (∀ j, j ≤ k → t (i + j) ≠ AttemptOutcome.status 200) → k + 1 < fuel →
      k + 1 ≤ (asyncRunAux t i fuel).sleeps ∧ k + 2 ≤ (asyncRunAux t i fuel).attempts := by
  intro k
  induction k with
  | zero =>
    intro i fuel htr hf
    obtain ⟨f, rfl⟩ : ∃ f, fuel = f + 1 := ⟨fuel - 1, by omega⟩
    rw [asyncRunAux_retry_step t i f (by simpa using htr 0 (by omega))]
    have hpos := asyncRunAux_attempts_pos t f (i + 1) (by omega)
    constructor
    · simp
    · simp only []
      omega
  | succ kk ih =>
    intro i fuel htr hf
    obtain ⟨f, rfl⟩ : ∃ f, fuel = f + 1 := ⟨fuel - 1, by omega⟩
    rw [asyncRunAux_retry_step t i f (by simpa using htr 0 (by omega))]
    have hrec := ih (i + 1) f
      (fun j hj => by
        have hh := htr (j + 1) (by omega)
        rwa [show i + (j + 1) = i + 1 + j from by ring] at hh)
      (by omega)
    have h1 := hrec.1
    have h2 := hrec.2
    constructor
    · simp only []
      omega
    · simp only []
      omega

theorem asyncRunAux_success_at (t : Nat → AttemptOutcome) :
    ∀ (k : Nat), ∀ i fuel, (∀ j, j < k → t (i + j) ≠ AttemptOutcome.status 200) →
      t (i + k) = AttemptOutcome.status 200 → k < fuel →
      asyncRunAux t i fuel = ⟨k + 1, k, RunOutcome.success (i + k)⟩ := by
  intro k
  induction k with
  | zero =>
    intro i fuel hpre ht hf
    obtain ⟨f, rfl⟩ : ∃ f, fuel = f + 1 := ⟨fuel - 1, by omega⟩
    rw [asyncRunAux_200 t i f 200 (by simpa using ht) (by decide)]
    simp
  | succ kk ih =>
    intro i fuel hpre ht hf
    obtain ⟨f, rfl⟩ : ∃ f, fuel = f + 1 := ⟨fuel - 1, by omega⟩
    rw [asyncRunAux_retry_step t i f (by simpa using hpre 0 (by omega))]
    rw [ih (i + 1) f
      (fun j hj => by
        have hh := hpre (j + 1) (by omega)
        rwa [show i + (j + 1) = i + 1 + j from by ring] at hh)
      (by rwa [show i + (kk + 1) = i + 1 + kk from by ring] at ht)
      (by omega)]
    have harg : i + 1 + kk = i + (kk + 1) := by ring
    simp [harg]

/-- The transport answering 404 on every attempt. -/
def t404 : Nat → AttemptOutcome := fun _ => AttemptOutcome.status 404

/-- The transport answering 503, 503, then 200. -/
def t503 : Nat → AttemptOutcome :=
  fun i => if i < 2 then AttemptOutcome.status 503 else AttemptOutcome.status 200

/-- C2 counterexample: against the asynchronous executor
(`AsyncOverpassClient._run_query`), a transport answering {404} does NOT
fail immediately consuming 0 retries — with `max_retries = 3` it makes 3
attempts and sleeps 3 times before returning the sentinel, because that
loop retries every non-200 status. -/
theorem claim2_counterexample :
    async_run_model 3 t404 = ⟨3, 3, RunOutcome.noResult⟩ ∧ (3 : Nat) ≠ 0 := by
  constructor
  · decide
  · decide

/-- C2 amended: the synchronous executor (`OverpassQuery.run`) behaves
exactly as claimed — at most `max_retries` attempts; a 429/500/503 answer
or a connection failure is followed by one `retry_delay` sleep and, when
budget remains, another attempt; any other non-200 status returns the
failure outcome immediately (after a prefix of k transients, exactly k+1
attempts and k sleeps); a 200 succeeds; exhaustion without a 200 yields
the no-result sentinel, never a raised exception. The asynchronous
executor (`AsyncOverpassClient._run_query`) also caps attempts at
`max_retries` and returns the sentinel on exhaustion, but treats EVERY
non-200 status as retryable, so a terminal status consumes the remaining
budget instead of failing immediately. -/
theorem claim2_amended (m : Nat) (t : Nat → AttemptOutcome) :
    (run_model m t).attempts ≤ m ∧
    (async_run_model m t).attempts ≤ m ∧
    ((∀ j, j < m → t j ≠ AttemptOutcome.status 200) →
      (run_model m t).outcome = RunOutcome.noResult ∧
      (async_run_model m t).outcome = RunOutcome.noResult) ∧
    (∀ k, (∀ j, j ≤ k → transientB (t j) = true) → k + 1 < m →
      k + 1 ≤ (run_model m t).sleeps ∧ k + 2 ≤ (run_model m t).attempts) ∧
    (∀ k c, (∀ j, j < k → transientB (t j) = true) → t k = AttemptOutcome.status c →
      (c == 200) = false → retryable c = false → k < m →
      run_model m t = ⟨k + 1, k, RunOutcome.noResult⟩) ∧
    (∀ k, (∀ j, j < k → transientB (t j) = true) → t k = AttemptOutcome.status 200 → k < m →
      run_model m t = ⟨k + 1, k, RunOutcome.success k⟩) ∧
    (∀ k, (∀ j, j ≤ k → t j ≠ AttemptOutcome.status 200) → k + 1 < m →
      k + 1 ≤ (async_run_model m t).sleeps ∧ k + 2 ≤ (async_run_model m t).attempts) ∧
    (∀ k, (∀ j, j < k → t j ≠ AttemptOutcome.status 200) → t k = AttemptOutcome.status 200 →
      k < m → async_run_model m t = ⟨k + 1, k, RunOutcome.success k⟩) := by
  refine ⟨runAux_attempts_le t m 0, asyncRunAux_attempts_le t m 0, ?_, ?_, ?_, ?_, ?_, ?_⟩
  · intro h
    constructor
    · exact runAux_no200 t m 0 (fun j hj => by simpa using h j hj)
    · exact asyncRunAux_no200 t m 0 (fun j hj => by simpa using h j hj)
  · intro k htr hf
    exact runAux_transient_progress t k 0 m (fun j hj => by simpa using htr j hj) hf
  · intro k c hpre ht h200 hr hk
    exact runAux_terminal_immediate t k 0 m c (fun j hj => by simpa using hpre j hj)
      (by simpa using ht) h200 hr hk
  · intro k hpre ht hk
    have hres := runAux_success_at t k 0 m (fun j hj => by simpa using hpre j hj)
      (by simpa using ht) hk
    simpa [run_model] using hres
  · intro k htr hf
    exact asyncRunAux_progress t k 0 m (fun j hj => by simpa using htr j hj) hf
  · intro k hpre ht hk
    have hres := asyncRunAux_success_at t k 0 m (fun j hj => by simpa using hpre j hj)
      (by simpa using ht) hk
    simpa [async_run_model] using hres

/-- C2 witness: the spec's concrete examples — on the synchronous executor
a {404} transport fails after exactly one attempt and zero retries, while
{503, 503, 200} succeeds on the third attempt having consumed exactly two
retries; the async executor succeeds the same way on {503, 503, 200}. -/
theorem claim2_witness :
    run_model 3 t404 = ⟨1, 0, RunOutcome.noResult⟩ ∧
    run_model 3 t503 = ⟨3, 2, RunOutcome.success 2⟩ ∧
    async_run_model 3 t503 = ⟨3, 2, RunOutcome.success 2⟩ := by
  refine ⟨?_, ?_, ?_⟩
  · exact (claim2_amended 3 t404).2.2.2.2.1 0 404 (fun j hj => by omega) rfl
      (by decide) (by decide) (by decide)
  · exact (claim2_amended 3 t503).2.2.2.2.2.1 2
      (fun j hj => by interval_cases j <;> decide) rfl (by decide)
  · exact (claim2_amended 3 t503).2.2.2.2.2.2.2 2
      (fun j hj => by interval_cases j <;> decide) rfl (by decide)

theorem build_main_query_bbox (cfg : QueryCfg) (s w n e : String)
    (hb : cfg.bbox = some (s, w, n, e)) :
    build_main_query cfg = Except.ok (String.intercalate "\n"
      (cfg.element_types.map (fun et =>
        et ++ format_tags cfg.tags ++ ("(" ++ s ++ "," ++ w ++ "," ++ n ++ "," ++ e ++ ")") ++ ";"))) := by
  simp [build_main_query, locationClause, hb]

theorem build_main_query_area (cfg : QueryCfg) (hb : cfg.bbox = none)
    (ha : cfg.area_name ≠ "") :
    build_main_query cfg = Except.ok (String.intercalate "\n"
      (cfg.element_types.map (fun et => et ++ format_tags cfg.tags ++ "(area)" ++ ";"))) := by
  have ha2 : (cfg.area_name != "") = true := by simpa using ha
  simp [build_main_query, locationClause, hb, ha2]

theorem build_main_query_noloc (cfg : QueryCfg) (h : hasLocation cfg = false) :
    build_main_query cfg = Except.error "Either bbox or area_name must be specified." := by
  have hb : cfg.bbox = none := by
    cases hbb : cfg.bbox with
    | none => rfl
    | some b => simp [hasLocation, hbb] at h
  have ha : (cfg.area_name != "") = false := by
    simpa [hasLocation, hb] using h
  simp [build_main_query, locationClause, hb, ha]

theorem build_query_ok (cfg : QueryCfg) (mq : String)
    (h : build_main_query cfg = Except.ok mq) :
    build_query cfg = Except.ok (queryHeader cfg ++ "\n            " ++ build_area_query cfg ++
      "\n            (\n                " ++ mq ++ "\n            );\n            " ++
      queryEnding cfg) := by
  simp [build_query, h]

theorem build_query_noloc (cfg : QueryCfg) (h : hasLocation cfg = false) :
    build_query cfg = Except.error "Either bbox or area_name must be specified." := by
  simp [build_query, build_main_query_noloc cfg h]

theorem build_main_query_isOk (cfg : QueryCfg) (h : hasLocation cfg = true) :
    ∃ mq, build_main_query cfg = Except.ok mq := by
  cases hb : cfg.bbox with
  | some b =>
    obtain ⟨s, w, n, e⟩ := b
    exact ⟨_, build_main_query_bbox cfg s w n e hb⟩
  | none =>
    have ha : cfg.area_name ≠ "" := by
      simp [hasLocation, hb] at h
      simpa using h
    exact ⟨_, build_main_query_area cfg hb ha⟩

theorem async_runQuery_ok (cfg : QueryCfg) (t : Nat → AttemptOutcome)
    (h : hasLocation cfg = true) :
    async_runQuery cfg t = Except.ok (async_run_model cfg.max_retries t) := by
  obtain ⟨mq, hmq⟩ := build_main_query_isOk cfg h
  simp [async_runQuery, build_query_ok cfg mq hmq]

theorem async_runQuery_noloc (cfg : QueryCfg) (t : Nat → AttemptOutcome)
    (h : hasLocation cfg = false) :
    async_runQuery cfg t = Except.error "Either bbox or area_name must be specified." := by
  simp [async_runQuery, build_query_noloc cfg h]

theorem run_all_ok (batch : List (QueryCfg × (Nat → AttemptOutcome)))
    (h : ∀ b ∈ batch, hasLocation b.1 = true) :
    run_all batch = Except.ok (batch.map (fun b => async_run_model b.1.max_retries b.2)) := by
  induction batch with
  | nil => rfl
  | cons b rest ih =>
    have hb := h b (List.mem_cons_self b rest)
    have hq := async_runQuery_ok b.1 b.2 hb
    have hrest := ih (fun q hq2 => h q (List.mem_cons_of_mem b hq2))
    simp [run_all, hq, hrest]

/-- C7: for every batch of well-located query specifications, `run_all`
returns exactly one result per input spec, positioned in the original input
order; position i's result is the retry-loop outcome of spec i alone (so a
single spec's sentinel failure never removes or reorders its siblings),
and the returned list carries the terminal outcome of every spec. -/
theorem claim7_run_all_order (batch : List (QueryCfg × (Nat → AttemptOutcome)))
    (h : ∀ b ∈ batch, hasLocation b.1 = true) :
    run_all batch = Except.ok (batch.map (fun b => async_run_model b.1.max_retries b.2)) ∧
    (batch.map (fun b => async_run_model b.1.max_retries b.2)).length = batch.length ∧
    ∀ i (hi : i < batch.length),
      (batch.map (fun b => async_run_model b.1.max_retries b.2)).get ⟨i, by simpa using hi⟩ =
        async_run_model (batch.get ⟨i, hi⟩).1.max_retries (batch.get ⟨i, hi⟩).2 := by
  refine ⟨run_all_ok batch h, List.length_map batch _, ?_⟩
  intro i hi
  simp

/-- A spec locating by area name (used by the C7 and C8 witnesses). -/
def cfgArea : QueryCfg :=
  ⟨"Berlin", none, [("amenity", TagVal.pyStr "restaurant")], ["node", "way"], 25, "json",
   none, true, 3⟩

/-- A spec locating by bounding box. -/
def cfgBox : QueryCfg :=
  ⟨"", some ("1.0", "2.0", "3.0", "4.0"), [], ["node"], 25, "json", none, false, 3⟩

/-- A two-query batch, each query with its own transport. -/
def batchW : List (QueryCfg × (Nat → AttemptOutcome)) := [(cfgArea, t404), (cfgBox, t503)]

/-- C7 witness: the theorem applied to the concrete two-query batch (one
query exhausting its retries against {404, ...}, its sibling succeeding
against {503, 503, 200}). -/
theorem claim7_witness :
    run_all batchW = Except.ok (batchW.map (fun b => async_run_model b.1.max_retries b.2)) :=
  (claim7_run_all_order batchW (by
    intro b hb
    simp [batchW] at hb
    rcases hb with rfl | rfl <;> decide)).1

theorem waitLoopTr_events (avail : Nat → Bool) (mw : Nat) :
    ∀ fuel waited, ∀ ev ∈ (waitLoopTr avail mw waited fuel).1, ∃ u, ev = NetEvent.statusPoll u := by
  intro fuel
  induction fuel with
  | zero =>
    intro waited ev hev
    simp [waitLoopTr] at hev
  | succ f ih =>
    intro waited ev hev
    by_cases hw : waited < mw
    · cases hav : avail waited with
      | true =>
        simp [waitLoopTr, hw, hav] at hev
        exact ⟨waited, hev⟩
      | false =>
        simp [waitLoopTr, hw, hav] at hev
        rcases hev with hev | hev
        · exact ⟨waited, hev⟩
        · exact ih (waited + 5) ev hev
    · simp [waitLoopTr, hw] at hev

theorem run_trace_noloc (cfg : QueryCfg) (h : hasLocation cfg = false)
    (avail : Nat → Bool) (t : Nat → AttemptOutcome) :
    ((run_trace cfg avail t).2 = RunEndState.configError ∨
     (run_trace cfg avail t).2 = RunEndState.slotTimeout) ∧
    (∀ ev ∈ (run_trace cfg avail t).1, ∃ u, ev = NetEvent.statusPoll u) := by
  have hev := waitLoopTr_events avail 60 60 0
  cases hw : (waitLoopTr avail 60 0 60).2 with
  | timeout e2 =>
    have htr : run_trace cfg avail t = ((waitLoopTr avail 60 0 60).1, RunEndState.slotTimeout) := by
      simp [run_trace, hw]
    rw [htr]
    exact ⟨Or.inr rfl, hev⟩
  | ok e2 =>
    have htr : run_trace cfg avail t = ((waitLoopTr avail 60 0 60).1, RunEndState.configError) := by
      simp [run_trace, hw, build_query_noloc cfg h]
    rw [htr]
    exact ⟨Or.inl rfl, hev⟩

/-- A spec with neither bounding box nor area name. -/
def cfgNoLoc : QueryCfg := ⟨"", none, [], ["node"], 25, "json", none, true, 3⟩

/-- C8 counterexample: with a slot available at the first status poll, the
`run` pipeline performs a network GET of the status endpoint BEFORE the
configuration failure surfaces — `_wait_for_slot` runs before
`_build_query` — so the failure does not occur before any network call. -/
theorem claim8_counterexample :
    run_trace cfgNoLoc (fun _ => true) t404 =
      ([NetEvent.statusPoll 0], RunEndState.configError) ∧
    ([NetEvent.statusPoll 0] : List NetEvent) ≠ [] := by
  constructor
  · decide
  · decide

/-- C8 amended: a spec with neither bounding box nor area name fails query
building with the configuration error; in the async client this happens
before any network call (zero attempts), while in the synchronous `run`
pipeline it happens before any MAIN-endpoint request but after the
status-endpoint polls of the slot gate. When a bounding box is present its
four components render literally as `(s,w,n,e)`; otherwise the area name
renders as `(area)` preceded in the built query text by the statement
selecting the named administrative area. -/
theorem claim8_amended (cfg : QueryCfg) :
    (hasLocation cfg = false →
      build_main_query cfg = Except.error "Either bbox or area_name must be specified." ∧
      build_query cfg = Except.error "Either bbox or area_name must be specified." ∧
      (∀ t, async_runQuery cfg t = Except.error "Either bbox or area_name must be specified.") ∧
      (∀ avail t,
        ((run_trace cfg avail t).2 = RunEndState.configError ∨
         (run_trace cfg avail t).2 = RunEndState.slotTimeout) ∧
        (∀ ev ∈ (run_trace cfg avail t).1, ∃ u, ev = NetEvent.statusPoll u))) ∧
    (∀ s w n e, cfg.bbox = some (s, w, n, e) →
      build_main_query cfg = Except.ok (String.intercalate "\n"
        (cfg.element_types.map (fun et =>
          et ++ format_tags cfg.tags ++ ("(" ++ s ++ "," ++ w ++ "," ++ n ++ "," ++ e ++ ")") ++ ";")))) ∧
    (cfg.bbox = none → cfg.area_name ≠ "" →
      build_area_query cfg = "area[name=\"" ++ cfg.area_name ++ "\"][admin_level];" ∧
      build_query cfg = Except.ok (queryHeader cfg ++ "\n            " ++
        ("area[name=\"" ++ cfg.area_name ++ "\"][admin_level];") ++
        "\n            (\n                " ++
        String.intercalate "\n" (cfg.element_types.map (fun et =>
          et ++ format_tags cfg.tags ++ "(area)" ++ ";")) ++
        "\n            );\n            " ++ queryEnding cfg)) := by
  refine ⟨?_, ?_, ?_⟩
  · intro h
    exact ⟨build_main_query_noloc cfg h, build_query_noloc cfg h,
      fun t => async_runQuery_noloc cfg t h,
      fun avail t => run_trace_noloc cfg h avail t⟩
  · intro s w n e hb
    exact build_main_query_bbox cfg s w n e hb
  · intro hb ha
    have harea : build_area_query cfg = "area[name=\"" ++ cfg.area_name ++ "\"][admin_level];" := by
      simp [build_area_query, ha]
    refine ⟨harea, ?_⟩
    have hq := build_query_ok cfg _ (build_main_query_area cfg hb ha)
    rw [harea] at hq
    exact hq

/-- C8 witness: the amended theorem at concrete specs — literal bbox
rendering, the area statement present, and the configuration error for a
location-free spec. -/
theorem claim8_witness :
    build_main_query cfgBox = Except.ok "node(1.0,2.0,3.0,4.0);" ∧
    build_area_query cfgArea = "area[name=\"Berlin\"][admin_level];" ∧
    build_main_query cfgNoLoc = Except.error "Either bbox or area_name must be specified." := by
  refine ⟨?_, ?_, ?_⟩
  · exact ((claim8_amended cfgBox).2.1 "1.0" "2.0" "3.0" "4.0" rfl).trans (by decide)
  · exact (((claim8_amended cfgArea).2.2 rfl (by decide)).1).trans (by decide)
  · exact ((claim8_amended cfgNoLoc).1 (by decide)).1

end OsintOverpass
